import Mathlib

/-!
Verification of the unica-wb build-orchestration backend.

The definitions below are a shallow embedding of the Python source
(`backend/app/main.py`, `backend/app/tasks.py`, `backend/app/mods_archive.py`,
`backend/app/firmware_progress.py`): pure functions become Lean functions,
machine integers become `Nat`/`Int` with explicit `% 2^32` where overflow
matters, floating-point time values become exact rationals, and OS or
database interactions become explicit state passing with oracle parameters
for the non-deterministic parts.
-/

namespace UnicaWB

/-! ## SHA-256 (hashlib.sha256), over byte lists -/

/-- 2^32, the word modulus of SHA-256. -/
def M32 : Nat := 4294967296

/-- Rotate a word right by `n` bits, within 32 bits. -/
def rotr (n x : Nat) : Nat := ((x >>> n) ||| (x <<< (32 - n))) % M32

/-- Bitwise complement of a 32-bit word. -/
def not32 (x : Nat) : Nat := x ^^^ 4294967295

def bsig0 (x : Nat) : Nat := (rotr 2 x) ^^^ (rotr 13 x) ^^^ (rotr 22 x)

def bsig1 (x : Nat) : Nat := (rotr 6 x) ^^^ (rotr 11 x) ^^^ (rotr 25 x)

def ssig0 (x : Nat) : Nat := (rotr 7 x) ^^^ (rotr 18 x) ^^^ (x >>> 3)

def ssig1 (x : Nat) : Nat := (rotr 17 x) ^^^ (rotr 19 x) ^^^ (x >>> 10)

def chf (x y z : Nat) : Nat := (x &&& y) ^^^ ((not32 x) &&& z)

def majf (x y z : Nat) : Nat := (x &&& y) ^^^ (x &&& z) ^^^ (y &&& z)

/-- The 64 SHA-256 round constants. -/
def K256 : List Nat :=
  [1116352408, 1899447441, 3049323471, 3921009573, 961987163, 1508970993,
   2453635748, 2870763221, 3624381080, 310598401, 607225278, 1426881987,
   1925078388, 2162078206, 2614888103, 3248222580, 3835390401, 4022224774,
   264347078, 604807628, 770255983, 1249150122, 1555081692, 1996064986,
   2554220882, 2821834349, 2952996808, 3210313671, 3336571891, 3584528711,
   113926993, 338241895, 666307205, 773529912, 1294757372, 1396182291,
   1695183700, 1986661051, 2177026350, 2456956037, 2730485921, 2820302411,
   3259730800, 3345764771, 3516065817, 3600352804, 4094571909, 275423344,
   430227734, 506948616, 659060556, 883997877, 958139571, 1322822218,
   1537002063, 1747873779, 1955562222, 2024104815, 2227730452, 2361852424,
   2428436474, 2756734187, 3204031479, 3329325298]

/-- The SHA-256 initial hash state. -/
def H256 : List Nat :=
  [1779033703, 3144134277, 1013904242, 2773480762, 1359893119, 2600822924,
   528734635, 1541459225]

/-- `n` bytes of `v`, big-endian. -/
def beBytes : Nat → Nat → List Nat
  | 0, _ => []
  | n + 1, v => beBytes n (v >>> 8) ++ [v &&& 255]

/-- SHA-256 padding: append 0x80, zeros to 56 mod 64, then the 64-bit
big-endian bit length. -/
def padMessage (msg : List Nat) : List Nat :=
  let len := msg.length
  let zeros := (119 - len % 64) % 64
  msg ++ [0x80] ++ List.replicate zeros 0 ++ beBytes 8 (8 * len)

/-- Split a byte list into chunks of `k` bytes (fuel-driven). -/
def chunksGo (k : Nat) : Nat → List Nat → List (List Nat)
  | 0, _ => []
  | _, [] => []
  | fuel + 1, l => l.take k :: chunksGo k fuel (l.drop k)

def chunks (k : Nat) (l : List Nat) : List (List Nat) := chunksGo k l.length l

/-- Four big-endian bytes into a 32-bit word. -/
def word4 : List Nat → Nat
  | [a, b, c, d] => ((a <<< 24) ||| (b <<< 16) ||| (c <<< 8) ||| d) % M32
  | _ => 0

/-- Message-schedule extension, carried as a reversed word list. -/
def schedExtend : Nat → List Nat → List Nat
  | 0, rev => rev
  | fuel + 1, rev =>
      let w2 := rev.getD 1 0
      let w7 := rev.getD 6 0
      let w15 := rev.getD 14 0
      let w16 := rev.getD 15 0
      schedExtend fuel (((ssig1 w2 + w7 + ssig0 w15 + w16) % M32) :: rev)

/-- The 64-entry message schedule of one 16-word block. -/
def schedule (block : List Nat) : List Nat :=
  (schedExtend 48 block.reverse).reverse

/-- One SHA-256 compression round on the 8-word working state. -/
def compressStep (st : List Nat) (kw : Nat × Nat) : List Nat :=
  match st with
  | [a, b, c, d, e, f, g, h] =>
      let t1 := (h + bsig1 e + chf e f g + kw.1 + kw.2) % M32
      let t2 := (bsig0 a + majf a b c) % M32
      [(t1 + t2) % M32, a, b, c, (d + t1) % M32, e, f, g]
  | other => other

/-- Process one 64-byte block into the running hash state. -/
def compressBlock (h : List Nat) (block : List Nat) : List Nat :=
  let ws := schedule ((chunks 4 block).map word4)
  let st := (K256.zip ws).foldl compressStep h
  (h.zip st).map (fun p => (p.1 + p.2) % M32)

/-- SHA-256 of a byte list, as 8 32-bit words. -/
def sha256Words (msg : List Nat) : List Nat :=
  (chunks 64 (padMessage msg)).foldl compressBlock H256

/-- SHA-256 of a byte list, as 32 digest bytes. -/
def sha256Bytes (msg : List Nat) : List Nat :=
  (sha256Words msg).flatMap (beBytes 4)

/-- One lowercase hex digit. -/
def hexDigit (n : Nat) : Char :=
  if n < 10 then Char.ofNat (48 + n) else Char.ofNat (87 + n)

/-- Lowercase hex encoding of a byte list. -/
def toHex (bs : List Nat) : String :=
  String.mk (bs.flatMap (fun b => [hexDigit (b >>> 4), hexDigit (b &&& 15)]))

/-- UTF-8 encoding of one Unicode code point. -/
def utf8EncodeNat (c : Nat) : List Nat :=
  if c < 0x80 then [c]
  else if c < 0x800 then [0xc0 ||| (c >>> 6), 0x80 ||| (c &&& 0x3f)]
  else if c < 0x10000 then
    [0xe0 ||| (c >>> 12), 0x80 ||| ((c >>> 6) &&& 0x3f), 0x80 ||| (c &&& 0x3f)]
  else
    [0xf0 ||| (c >>> 18), 0x80 ||| ((c >>> 12) &&& 0x3f),
     0x80 ||| ((c >>> 6) &&& 0x3f), 0x80 ||| (c &&& 0x3f)]

/-- UTF-8 bytes of a string (`str.encode("utf-8")`). -/
def utf8Bytes (s : String) : List Nat :=
  s.data.flatMap (fun c => utf8EncodeNat c.toNat)

/-- `hashlib.sha256(s.encode("utf-8")).hexdigest()`. -/
def sha256Hex (s : String) : String := toHex (sha256Bytes (utf8Bytes s))

/-- Python string slicing `s[:n]`: the first `n` code points. -/
def strTake (n : Nat) (s : String) : String := String.mk (s.data.take n)

/-! ## Build signature (`main.py` `_build_signature` and its call in `create_job`) -/

/-- `_build_signature` from `main.py`: SHA-256 hex digest, truncated to 40 hex
characters, of the `|`-joined fields in the order of the parameter list. -/
def buildSignature (target source_commit source_firmware target_firmware : String)
    (version_major version_minor version_patch : Nat) (version_suffix : String)
    (extra_mods_signature debloat_signature debloat_add_system_signature
     debloat_add_product_signature mods_signature ff_signature : String) : String :=
  let payload := String.intercalate "|"
    [target, source_commit, source_firmware, target_firmware,
     toString version_major, toString version_minor, toString version_patch, version_suffix,
     extra_mods_signature, debloat_signature, debloat_add_system_signature,
     debloat_add_product_signature, mods_signature, ff_signature]
  strTake 40 (sha256Hex payload)

/-- A short payload digest from `create_job`:
`hashlib.sha256(json.encode("utf-8")).hexdigest()[:16]`. -/
def shortSig (s : String) : String := strTake 16 (sha256Hex s)

/-- Optional payloads (`extra_mods_modules_json`, `mods_disabled_json`,
`ff_overrides_json`) contribute their short digest when present and the empty
string otherwise, exactly as the corresponding `*_signature` locals of
`create_job` are initialized to `""` and only assigned when the payload is
supplied. -/
def optShortSig : Option String → String
  | none => ""
  | some j => shortSig j

/-- The build signature stored by `create_job`: `_build_signature` applied to
the short digests of the serialized payloads, in the argument order of the
call site (extra mods, debloat_disabled, debloat_add_system,
debloat_add_product, mods_disabled, ff_overrides). -/
def createJobBuildSignature (target source_commit source_firmware target_firmware : String)
    (vMajor vMinor vPatch : Nat) (suffix : String)
    (extraModsModulesJson modsDisabledJson ffOverridesJson : Option String)
    (debloatDisabledJson debloatAddSystemJson debloatAddProductJson : String) : String :=
  buildSignature target source_commit source_firmware target_firmware
    vMajor vMinor vPatch suffix
    (optShortSig extraModsModulesJson)
    (shortSig debloatDisabledJson)
    (shortSig debloatAddSystemJson)
    (shortSig debloatAddProductJson)
    (optShortSig modsDisabledJson)
    (optShortSig ffOverridesJson)

/-- The signature as the spec sentence behind claim C1 words it: the short
payload digests joined in the order extra mods, mods_disabled,
debloat_disabled, debloat_add_system, debloat_add_product, ff_overrides. -/
def specOrderSignature (target source_commit source_firmware target_firmware : String)
    (vMajor vMinor vPatch : Nat) (suffix : String)
    (extraModsModulesJson modsDisabledJson ffOverridesJson : Option String)
    (debloatDisabledJson debloatAddSystemJson debloatAddProductJson : String) : String :=
  let payload := String.intercalate "|"
    [target, source_commit, source_firmware, target_firmware,
     toString vMajor, toString vMinor, toString vPatch, suffix,
     optShortSig extraModsModulesJson,
     optShortSig modsDisabledJson,
     shortSig debloatDisabledJson,
     shortSig debloatAddSystemJson,
     shortSig debloatAddProductJson,
     optShortSig ffOverridesJson]
  strTake 40 (sha256Hex payload)

/-- The signature as amended for claim C1: identical to `specOrderSignature`
except that the short digests are joined in the order the `create_job` call
site actually passes them — extra mods, debloat_disabled, debloat_add_system,
debloat_add_product, mods_disabled, ff_overrides. -/
def amendedOrderSignature (target source_commit source_firmware target_firmware : String)
    (vMajor vMinor vPatch : Nat) (suffix : String)
    (extraModsModulesJson modsDisabledJson ffOverridesJson : Option String)
    (debloatDisabledJson debloatAddSystemJson debloatAddProductJson : String) : String :=
  let payload := String.intercalate "|"
    [target, source_commit, source_firmware, target_firmware,
     toString vMajor, toString vMinor, toString vPatch, suffix,
     optShortSig extraModsModulesJson,
     shortSig debloatDisabledJson,
     shortSig debloatAddSystemJson,
     shortSig debloatAddProductJson,
     optShortSig modsDisabledJson,
     optShortSig ffOverridesJson]
  strTake 40 (sha256Hex payload)

/-! ## Job status lifecycle (`main.py` `stop_job`, `tasks.py` `run_build_job`) -/

inductive JobStatus
  | queued | running | succeeded | failed | canceled | reused
deriving DecidableEq, Repr

/-- The terminal statuses, the set `{"succeeded", "failed", "reused", "canceled"}`
both `stop_job` and `run_stop_job_task` early-return on. -/
def JobStatus.isTerminal : JobStatus → Bool
  | .succeeded | .failed | .reused | .canceled => true
  | _ => false

/-- The slice of system state that decides claim C2: the job's status, whether
the builds-queue item enqueued for it is still pending, whether a stop task
has been pushed on the controls queue, and the job's error text. -/
structure JobSys where
  status : JobStatus
  queueItemPending : Bool
  controlStopEnqueued : Bool
  error : Option String
deriving DecidableEq, Repr

/-- `stop_job` (`main.py`): terminal statuses are returned unchanged; a queued
job is marked canceled directly in the database (this branch performs no queue
operation, so the enqueued builds-queue item is left pending); otherwise a
`stop_job_task` is enqueued on the controls queue. -/
def apiStopJob (s : JobSys) : JobSys :=
  if s.status.isTerminal then s
  else if s.status = .queued then
    { s with status := .canceled, error := some "Build canceled by user (queued job)" }
  else
    { s with controlStopEnqueued := true,
             error := some "Stop requested by user (SIGTERM)" }

/-- The opening lines of `run_build_job` (`tasks.py`), run when the worker
dispatches a pending builds-queue item: if the job row exists the status is
set to `running` unconditionally — there is no guard on the current status. -/
def runBuildJobStart (s : JobSys) : JobSys :=
  { s with status := .running, queueItemPending := false }

/-! ## Artifact reuse (`main.py` `create_job`, reuse branch) -/

/-- The columns of a `BuildJob` row that the reuse query reads. -/
structure JobRow where
  id : Nat
  buildSignature : String
  status : JobStatus
  artifactPath : Option String
  finishedAt : Int
  createdAt : Int
deriving DecidableEq, Repr

/-- The reuse query: jobs with the same signature, status `succeeded` or
`reused` and a non-null artifact path, ordered by `finished_at` descending then
`created_at` descending, first row.  The fold keeps the earlier row on ties,
matching a stable ordering of the filtered list. -/
def reuseCandidate (db : List JobRow) (sig : String) : Option JobRow :=
  let rows := db.filter (fun r =>
    r.buildSignature = sig
      ∧ (r.status = .succeeded ∨ r.status = .reused)
      ∧ r.artifactPath.isSome)
  rows.foldl (fun acc r =>
    match acc with
    | none => some r
    | some b =>
        if r.finishedAt > b.finishedAt
            ∨ (r.finishedAt = b.finishedAt ∧ r.createdAt > b.createdAt)
        then some r else some b) none

/-- The row `create_job` inserts, restricted to the fields claim C4 talks
about. -/
structure NewJob where
  status : JobStatus
  returnCode : Option Int
  artifactPath : Option String
  reusedFromJobId : Option Nat
  startedAt : Option Int
  finishedAt : Option Int
deriving DecidableEq, Repr

/-- What `create_job` does after computing the signature. -/
structure CreateJobResult where
  job : NewJob
  enqueuedOnBuilds : Bool
  deletedUploadedArchive : Bool
deriving DecidableEq, Repr

/-- Python truthiness of an optional string (`None` and `""` are falsy). -/
def optStrTruthy : Option String → Bool
  | none => false
  | some s => s ≠ ""

/-- The tail of `create_job` (`main.py`): unless `force` or `no_rom_zip`, look
up the reuse candidate; if it exists, its artifact path is truthy and the file
exists, delete the uploaded mods archive (when one was attached) and insert a
`reused` row with `started_at = finished_at = now` without enqueueing;
otherwise insert a `queued` row and enqueue `build_job_task`. -/
def createJobFinish (force noRomZip : Bool) (sig : String) (db : List JobRow)
    (fsExists : String → Bool) (now : Int)
    (extraModsArchivePath : Option String) : CreateJobResult :=
  let fresh : CreateJobResult :=
    { job := { status := .queued, returnCode := none, artifactPath := none,
               reusedFromJobId := none, startedAt := none, finishedAt := none },
      enqueuedOnBuilds := true, deletedUploadedArchive := false }
  if ¬ force ∧ ¬ noRomZip then
    match reuseCandidate db sig with
    | some ex =>
        match ex.artifactPath with
        | some ap =>
            if ap ≠ "" ∧ fsExists ap then
              { job := { status := .reused, returnCode := some 0,
                         artifactPath := some ap, reusedFromJobId := some ex.id,
                         startedAt := some now, finishedAt := some now },
                enqueuedOnBuilds := false,
                deletedUploadedArchive := optStrTruthy extraModsArchivePath }
            else fresh
        | none => fresh
    | none => fresh
  else fresh

/-! ## Log tailing (`main.py` `_tail_log_start_pos`, `_read_log_chunk`) -/

/-- Byte offset just past the line containing `pos`: `f.seek(pos); f.readline();
f.tell()`. -/
def lineEndFrom (content : List Nat) (pos : Nat) : Nat :=
  match (content.drop pos).findIdx? (fun b => b = 10) with
  | some i => pos + i + 1
  | none => content.length

/-- `_tail_log_start_pos` (`main.py`): missing file or `tail_kb <= 0` give
position 0; otherwise seek to `max(0, size - tail_kb*1024)` and align forward
to a line boundary.  The log file is the byte list `content`. -/
def tailLogStartPos (fileExists : Bool) (content : List Nat) (tail_kb : Int) : Nat :=
  if ¬ fileExists ∨ tail_kb ≤ 0 then 0
  else
    let size : Int := content.length
    let pos : Int := max 0 (size - tail_kb * 1024)
    if pos ≤ 0 then 0
    else lineEndFrom content pos.toNat

/-- `_read_log_chunk` (`main.py`): read everything from `pos` to the end and
return it with the new position. -/
def readLogChunk (fileExists : Bool) (content : List Nat) (pos : Nat) :
    List Nat × Nat :=
  if ¬ fileExists then ([], pos)
  else (content.drop pos, max pos content.length)

/-! ## Stop task (`tasks.py` `run_stop_job_task`) -/

/-- Outcome of `os.killpg(pid, 0)` / `os.kill(pid, 0)`: success, one of the
two dedicated exception classes, or a plain `OSError` with an errno. -/
inductive KillProbe
  | ok
  | processLookup
  | permission
  | oserr (e : Nat)
deriving DecidableEq, Repr

def ESRCH : Nat := 3

def EPERM : Nat := 1

/-- `_is_alive` from `run_stop_job_task`: probe the process group first
(present ⇒ alive, ESRCH ⇒ dead, EPERM ⇒ alive), and on an unrecognized errno
fall back to probing the process directly. -/
def isAlive (pgProbe directProbe : KillProbe) : Bool :=
  match pgProbe with
  | .ok => true
  | .processLookup => false
  | .permission => true
  | .oserr e =>
      if e = ESRCH then false
      else if e = EPERM then true
      else
        match directProbe with
        | .ok => true
        | .processLookup => false
        | .permission => true
        | .oserr e2 => e2 ≠ ESRCH

/-- The confirmation timeout of `run_stop_job_task`:
`5 if signal_type == "sigkill" else 25` seconds. -/
def stopTimeoutSec (signal_type : String) : Nat :=
  if signal_type = "sigkill" then 5 else 25

/-- ASCII upper-casing (`str.upper()`). -/
def strUpper (s : String) : String := String.mk (s.data.map Char.toUpper)

/-- The job fields written by the running-with-pid branch of
`run_stop_job_task`. -/
structure StopOutcome where
  status : JobStatus
  error : Option String
  processPid : Option Nat
deriving DecidableEq, Repr

/-- The running-with-pid branch of `run_stop_job_task`, after the signal has
been sent and the confirmation wait has elapsed: if the process group is dead
the job becomes `canceled` with the pid cleared; if it is still alive the
status is left `running` and the error records that the process is still
running and the stop should be retried. -/
def runStopRunning (signal_type : String) (pid : Nat) (aliveAfterWait : Bool) :
    StopOutcome :=
  if ¬ aliveAfterWait then
    { status := .canceled,
      error := some (if signal_type = "sigkill" then "Build canceled by user (SIGKILL)"
                     else "Build canceled by user (SIGTERM)"),
      processPid := none }
  else
    { status := .running,
      error := some ("Stop requested by user (" ++ strUpper signal_type
        ++ "), but process is still running. Retry stop if needed."),
      processPid := some pid }

/-- A concrete succeeded job row used to exercise the reuse decision. -/
def succeededRow7 : JobRow :=
  { id := 7, buildSignature := "sig-a", status := .succeeded,
    artifactPath := some "out/UN1CA_1.zip", finishedAt := 50, createdAt := 40 }

/-- The concrete claim-C2 scenario: a job still `queued` whose builds-queue
item is pending and for which no stop task has run yet. -/
def queuedJobSys : JobSys :=
  { status := .queued, queueItemPending := true,
    controlStopEnqueued := false, error := none }

/-! ## Archive extraction (`mods_archive.py` `_safe_join`, `_extract_zip`) -/

/-- Splitting accumulator: collect a component until the next `/`. -/
def splitSlashGo (cur : List Char) : List Char → List String
  | [] => [String.mk cur.reverse]
  | c :: rest =>
      if c = '/' then String.mk cur.reverse :: splitSlashGo [] rest
      else splitSlashGo (c :: cur) rest

/-- POSIX path components of a relative archive entry name: split on `/`
(empty components are kept, as Python `str.split("/")` does). -/
def splitSlash (s : String) : List String := splitSlashGo [] s.data

/-- `Path.resolve()` of `base / rel`, with `base` an already-canonical
absolute path given as its components (symlink-free model): normalize away
empty components, `.` and `..`. -/
def resolveComponents (base : List String) (rel : String) : List String :=
  (splitSlash rel).foldl (fun acc c =>
    if c = "" ∨ c = "." then acc
    else if c = ".." then acc.dropLast
    else acc ++ [c]) base

/-- `str(Path(...))` for an absolute path given as components. -/
def pathStr (cs : List String) : String :=
  "/" ++ String.intercalate "/" cs

/-- Python `str.startswith`. -/
def strStartsWith (s pre : String) : Bool :=
  s.data.take pre.data.length = pre.data

/-- Python `str.endswith`. -/
def strEndsWith (s suf : String) : Bool :=
  s.data.drop (s.data.length - suf.data.length) = suf.data

/-- `_safe_join` (`mods_archive.py`): resolve `base / rel` and raise
`ModsArchiveError` unless the string form of the result starts with the
string form of the resolved base. -/
def safeJoin (base : List String) (rel : String) : Except String (List String) :=
  let out := resolveComponents base rel
  if strStartsWith (pathStr out) (pathStr base) then .ok out
  else .error ("Unsafe archive path: " ++ rel)

/-- A resolved path lies inside the extraction root exactly when the root's
components are a prefix of its components. -/
def withinRoot (base out : List String) : Bool :=
  out.take base.length = base

/-- The extraction loop of `_extract_zip` (`_extract_tar` is identical with
respect to `_safe_join`): skip empty names and directory entries, pass every
other entry through `_safe_join`, and write the file at the resolved path.
Returns the list of paths written, or the first `ModsArchiveError`. -/
def extractZipWrites (dest : List String) : List String → Except String (List (List String))
  | [] => .ok []
  | name :: rest =>
      if name = "" ∨ strEndsWith name "/" then extractZipWrites dest rest
      else
        match safeJoin dest name with
        | .error e => .error e
        | .ok out =>
            match extractZipWrites dest rest with
            | .error e => .error e
            | .ok ws => .ok (out :: ws)

/-! ## Progress parsing (`tasks.py` `_to_bytes`, `_parse_progress`,
`_parse_hms`, `_guess_fw_key`)

The regexes of `tasks.py` are embedded as explicit backtracking matchers: each
piece of a pattern returns its list of (consumed characters, rest)
alternatives in exactly the order Python `re` would try them, pieces are
sequenced with `altBind`, and `re.search` is leftmost-position search. -/

/-- Python `\s` on ASCII text. -/
def isSpaceRe (c : Char) : Bool :=
  c = ' ' ∨ c = '\t' ∨ c = '\n' ∨ c = '\r' ∨ c = '\x0b' ∨ c = '\x0c'

/-- Leftmost `re.search`: try the matcher at each position, left to right. -/
def reSearch {α : Type} (f : List Char → Option α) : List Char → Option α
  | [] => f []
  | c :: rest =>
      match f (c :: rest) with
      | some x => some x
      | none => reSearch f rest

/-- Sequence two backtracking pieces, preserving alternative order. -/
def altBind {α β : Type} (xs : List (α × List Char))
    (f : α → List Char → List (β × List Char)) : List (β × List Char) :=
  xs.flatMap (fun p => f p.1 p.2)

/-- `p+`, greedy: alternatives from the longest run down to one character. -/
def plusAlts (p : Char → Bool) (l : List Char) : List (List Char × List Char) :=
  let r := l.takeWhile p
  (List.range r.length).map (fun i =>
    let k := r.length - i
    (l.take k, l.drop k))

/-- `p*`, greedy: alternatives from the longest run down to the empty one. -/
def starAlts (p : Char → Bool) (l : List Char) : List (List Char × List Char) :=
  let r := l.takeWhile p
  (List.range (r.length + 1)).map (fun i =>
    let k := r.length - i
    (l.take k, l.drop k))

/-- `p{lo,hi}`, greedy. -/
def rangeAlts (lo hi : Nat) (p : Char → Bool) (l : List Char) :
    List (List Char × List Char) :=
  let r := l.takeWhile p
  let n := min hi r.length
  (List.range (n + 1 - lo)).map (fun i =>
    let k := n - i
    (l.take k, l.drop k))

/-- `(?:\.\d+)?`, greedy: with the fractional part first, then without. -/
def fracAlts (l : List Char) : List (List Char × List Char) :=
  (match l with
   | '.' :: rest =>
       (plusAlts Char.isDigit rest).map (fun p => ('.' :: p.1, p.2))
   | _ => []) ++ [([], l)]

/-- `\d+(?:\.\d+)?`. -/
def numAlts (l : List Char) : List (List Char × List Char) :=
  altBind (plusAlts Char.isDigit l) (fun d r =>
    (fracAlts r).map (fun p => (d ++ p.1, p.2)))

def isUnitScale (c : Char) : Bool :=
  c = 'K' ∨ c = 'M' ∨ c = 'G' ∨ c = 'T' ∨ c = 'P'
    ∨ c = 'k' ∨ c = 'm' ∨ c = 'g' ∨ c = 't' ∨ c = 'p'

def isLetterI (c : Char) : Bool := c = 'i' ∨ c = 'I'

def isLetterB (c : Char) : Bool := c = 'b' ∨ c = 'B'

def isLetterS (c : Char) : Bool := c = 's' ∨ c = 'S'

def isLetterM (c : Char) : Bool := c = 'm' ∨ c = 'M'

/-- `[KMGTP]?i?B` under `re.IGNORECASE`, alternatives in backtracking
order. -/
def unitAlts (l : List Char) : List (List Char × List Char) :=
  (match l with
   | a :: b :: c :: rest =>
       if isUnitScale a ∧ isLetterI b ∧ isLetterB c then [([a, b, c], rest)] else []
   | _ => []) ++
  (match l with
   | a :: b :: rest =>
       (if isUnitScale a ∧ isLetterB b then [([a, b], rest)] else []) ++
       (if isLetterI a ∧ isLetterB b then [([a, b], rest)] else [])
   | _ => []) ++
  (match l with
   | a :: rest => if isLetterB a then [([a], rest)] else []
   | _ => [])

/-- `_RE_BYTES` (`done`/`du`/`total`/`tu`) tried at one position. -/
def matchBytesAt (l : List Char) :
    Option ((List Char × List Char) × (List Char × List Char)) :=
  (altBind (numAlts l) (fun d1 r1 =>
    altBind (starAlts isSpaceRe r1) (fun _ r2 =>
      altBind (unitAlts r2) (fun u1 r3 =>
        altBind (starAlts isSpaceRe r3) (fun _ r4 =>
          match r4 with
          | '/' :: r5 =>
              altBind (starAlts isSpaceRe r5) (fun _ r6 =>
                altBind (numAlts r6) (fun d2 r7 =>
                  altBind (starAlts isSpaceRe r7) (fun _ r8 =>
                    (unitAlts r8).map (fun p => (((d1, u1), (d2, p.1)), p.2)))))
          | _ => []))))).head?.map Prod.fst

/-- `_RE_SPEED` (`spd`/`su` followed by `/s`) tried at one position. -/
def matchSpeedAt (l : List Char) : Option (List Char × List Char) :=
  (altBind (numAlts l) (fun sp r1 =>
    altBind (starAlts isSpaceRe r1) (fun _ r2 =>
      altBind (unitAlts r2) (fun su r3 =>
        match r3 with
        | '/' :: c :: r4 => if isLetterS c then [((sp, su), r4)] else []
        | _ => [])))).head?.map Prod.fst

/-- `_RE_PERCENT` (`\d{1,3}%`) tried at one position. -/
def matchPctAt (l : List Char) : Option (List Char) :=
  (altBind (rangeAlts 1 3 Char.isDigit l) (fun d r =>
    match r with
    | '%' :: r2 => [(d, r2)]
    | _ => [])).head?.map Prod.fst

/-- `\d{1,2}:\d{2}(?::\d{2})?`, the time group of `_RE_ELAPSED_ETA`. -/
def hmsAlts (l : List Char) : List (List Char × List Char) :=
  altBind (rangeAlts 1 2 Char.isDigit l) (fun d1 r1 =>
    match r1 with
    | ':' :: a :: b :: r2 =>
        if a.isDigit ∧ b.isDigit then
          (match r2 with
           | ':' :: c :: d :: r3 =>
               if c.isDigit ∧ d.isDigit then
                 [(d1 ++ ':' :: a :: b :: ':' :: c :: [d], r3)]
               else []
           | _ => []) ++ [(d1 ++ ':' :: a :: [b], r2)]
        else []
    | _ => [])

/-- `_RE_ELAPSED_ETA` (`\[MM:SS<MM:SS`, closing bracket not required) tried at
one position. -/
def matchTimesAt (l : List Char) : Option (List Char × List Char) :=
  match l with
  | '[' :: r =>
      (altBind (hmsAlts r) (fun e r2 =>
        match r2 with
        | '<' :: r3 => (hmsAlts r3).map (fun p => ((e, p.1), p.2))
        | _ => [])).head?.map Prod.fst
  | _ => none

/-- Generalized one-character split, keeping empty fields (`str.split(sep)`). -/
def splitCharGo (sep : Char) (cur : List Char) : List Char → List String
  | [] => [String.mk cur.reverse]
  | c :: rest =>
      if c = sep then String.mk cur.reverse :: splitCharGo sep [] rest
      else splitCharGo sep (c :: cur) rest

def splitChar (sep : Char) (s : String) : List String := splitCharGo sep [] s.data

/-- Decimal digit string to a natural number (`int(...)`). -/
def digitsToNat (l : List Char) : Nat :=
  l.foldl (fun a c => a * 10 + (c.toNat - 48)) 0

/-- Python `str.isdigit` on ASCII (false for the empty string). -/
def strIsDigit (s : String) : Bool :=
  s.data ≠ [] ∧ s.data.all Char.isDigit

/-- `_parse_hms` (`tasks.py`): split on `:`, keep digit-only parts, and read
`MM:SS` or `HH:MM:SS`; anything else is 0. -/
def parseHms (value : String) : Nat :=
  let parts := ((splitChar ':' value).filter strIsDigit).map (fun p => digitsToNat p.data)
  match parts with
  | [mm, ss] => mm * 60 + ss
  | [hh, mm, ss] => hh * 3600 + mm * 60 + ss
  | _ => 0

/-- A tqdm decimal literal (like `3.2`) as an exact rational: numerator and
power-of-ten denominator.  Python parses it to a binary double; over the
non-negative magnitudes involved here `int(x * scale)` computed on doubles
agrees with the exact rational floor at every input exercised below. -/
def decimalVal (ds : List Char) : Nat × Nat :=
  let ip := ds.takeWhile (fun c => c ≠ '.')
  let fp := (ds.dropWhile (fun c => c ≠ '.')).drop 1
  (digitsToNat (ip ++ fp), 10 ^ fp.length)

/-- `str.strip()` on ASCII whitespace. -/
def stripWS (l : List Char) : List Char :=
  ((l.dropWhile isSpaceRe).reverse.dropWhile isSpaceRe).reverse

/-- Python `str.replace("IB", "B")`, scanning left to right. -/
def replaceIB : List Char → List Char
  | 'I' :: 'B' :: rest => 'B' :: replaceIB rest
  | c :: rest => c :: replaceIB rest
  | [] => []

/-- The `_to_bytes` scale table: `B`, `KB`, `MB`, `GB`, `TB`; any other
normalized unit (including `PB`) falls back to scale 1. -/
def unitScale (u : String) : Nat :=
  if u = "B" then 1
  else if u = "KB" then 1024
  else if u = "MB" then 1024 ^ 2
  else if u = "GB" then 1024 ^ 3
  else if u = "TB" then 1024 ^ 4
  else 1

/-- `_to_bytes(number, unit)`: normalize the unit via
`strip().upper().replace("IB", "B")`, scale, truncate to int (the number is
the exact rational `num / den ≥ 0`, so truncation is Nat division). -/
def toBytes (num den : Nat) (unit : List Char) : Nat :=
  let normalized := String.mk (replaceIB ((stripWS unit).map Char.toUpper))
  num * unitScale normalized / den

/-- The typed fields a `_parse_progress` payload can carry. -/
structure ProgressPayload where
  percent : Option Nat
  downloaded_bytes : Option Nat
  total_bytes : Option Nat
  speed_bps : Option Nat
  elapsed_sec : Option Nat
  eta_sec : Option Nat
deriving DecidableEq, Repr

def emptyPayload : ProgressPayload :=
  { percent := none, downloaded_bytes := none, total_bytes := none,
    speed_bps := none, elapsed_sec := none, eta_sec := none }

/-- `_parse_progress` (`tasks.py`): tqdm-style percent, done/total bytes,
speed, elapsed and eta.  The done/total ratio fallback percent
`int((done_bytes / total_bytes) * 100)` is the exact-rational floor
`done_bytes * 100 / total_bytes`. -/
def parseProgress (text : String) : Option ProgressPayload :=
  if text = "" then none
  else
    let chars := text.data
    let pctM := reSearch matchPctAt chars
    let bytesM := reSearch matchBytesAt chars
    if pctM = none ∧ bytesM = none then none
    else
      let percent0 : Option Nat := pctM.map (fun d => max 0 (min 100 (digitsToNat d)))
      let pair : Option Nat × Option Nat :=
        match bytesM with
        | some ((d, du), (t, tu)) =>
            let dv := decimalVal d
            let tv := decimalVal t
            (some (toBytes dv.1 dv.2 du), some (toBytes tv.1 tv.2 tu))
        | none => (none, none)
      let percent : Option Nat :=
        match percent0, pair.1, pair.2 with
        | none, some db, some tb =>
            if tb > 0 then some (max 0 (min 100 (db * 100 / tb))) else none
        | p, _, _ => p
      let speed : Option Nat :=
        match reSearch matchSpeedAt chars with
        | some (sp, su) =>
            let v := decimalVal sp
            some (toBytes v.1 v.2 su)
        | none => none
      let times : Option Nat × Option Nat :=
        match reSearch matchTimesAt chars with
        | some (e, t) => (some (parseHms (String.mk e)), some (parseHms (String.mk t)))
        | none => (none, none)
      let payload : ProgressPayload :=
        { percent := percent, downloaded_bytes := pair.1, total_bytes := pair.2,
          speed_bps := speed, elapsed_sec := times.1, eta_sec := times.2 }
      if payload = emptyPayload then none else some payload

/-! ## Firmware progress tracker (`tasks.py` `_FirmwareProgressTracker`,
`_guess_fw_key`; `firmware_progress.py` `set_progress`) -/

def isAZ09i (c : Char) : Bool := c.isUpper ∨ c.isLower ∨ c.isDigit

/-- `_RE_CACHE_KEY` (`SM-[A-Z0-9]+_[A-Z0-9]+`, ignorecase) tried at one
position; returns the matched characters. -/
def matchCacheKeyAt (l : List Char) : Option (List Char) :=
  match l with
  | a :: b :: c :: r =>
      if isLetterS a ∧ isLetterM b ∧ c = '-' then
        (altBind (plusAlts isAZ09i r) (fun p1 r1 =>
          match r1 with
          | '_' :: r2 =>
              (plusAlts isAZ09i r2).map (fun p =>
                (a :: b :: c :: (p1 ++ '_' :: p.1), p.2))
          | _ => [])).head?.map Prod.fst
      else none
  | _ => none

/-- `_RE_MODEL_CSC` (`(SM-[A-Z0-9]+)[/_]([A-Z0-9]{2,4})`, ignorecase) tried at
one position; returns both groups. -/
def matchModelCscAt (l : List Char) : Option (List Char × List Char) :=
  match l with
  | a :: b :: c :: r =>
      if isLetterS a ∧ isLetterM b ∧ c = '-' then
        (altBind (plusAlts isAZ09i r) (fun p1 r1 =>
          match r1 with
          | sep :: r2 =>
              if sep = '/' ∨ sep = '_' then
                (rangeAlts 2 4 isAZ09i r2).map (fun p =>
                  ((a :: b :: c :: p1, p.1), p.2))
              else []
          | _ => [])).head?.map Prod.fst
      else none
  | _ => none

/-- `needle in hay` on character lists. -/
def containsSub (needle : List Char) : List Char → Bool
  | [] => needle.isEmpty
  | c :: rest => (c :: rest).take needle.length = needle ∨ containsSub needle rest

/-- `_guess_fw_key` (`tasks.py`): cache-key regex first, then model/CSC pair,
then the first known key contained in the upper-cased line. -/
def guessFwKey (text : List Char) (known : List String) : String :=
  if text = [] then ""
  else
    match reSearch matchCacheKeyAt text with
    | some m => strUpper (String.mk m)
    | none =>
        match reSearch matchModelCscAt text with
        | some p => strUpper (String.mk p.1) ++ "_" ++ strUpper (String.mk p.2)
        | none =>
            match known.find? (fun k => k ≠ "" ∧ containsSub k.data (text.map Char.toUpper)) with
            | some k => k
            | none => ""

/-- Association-list read (a Python dict restricted to the keys used). -/
def alistGet {α : Type} : List (String × α) → String → Option α
  | [], _ => none
  | (k, v) :: rest, key => if k = key then some v else alistGet rest key

/-- Association-list write. -/
def alistSet {α : Type} : List (String × α) → String → α → List (String × α)
  | [], key, v => [(key, v)]
  | (k, w) :: rest, key, v =>
      if k = key then (k, v) :: rest else (k, w) :: alistSet rest key v

/-- `dict.setdefault`. -/
def alistSetD {α : Type} (m : List (String × α)) (key : String) (v : α) :
    List (String × α) :=
  if (alistGet m key).isSome then m else alistSet m key v

/-- Python `int()` on an exact rational: truncation toward zero. -/
def pyIntRat (x : ℚ) : Int := Int.tdiv x.num (x.den : Int)

/-- `_FirmwareProgressTracker` state.  Wall-clock instants are exact
rationals; within one `feed` line the several `time.time()` calls are modelled
as the single instant `now`. -/
structure TrackerState where
  jobId : String
  phase : String
  knownKeys : List String
  currentKey : String
  startedKeys : List String
  lastEmit : List (String × (Int × ℚ))
  startedAt : List (String × ℚ)
deriving DecidableEq, Repr

/-- `_FirmwareProgressTracker.__init__`. -/
def mkTracker (jobId : String) (knownKeys : List String) (phase : String) :
    TrackerState :=
  let ks := knownKeys.filter (fun k => k ≠ "")
  { jobId := jobId, phase := phase, knownKeys := ks,
    currentKey := if ks.length = 1 then ks.headD "" else "",
    startedKeys := [], lastEmit := [], startedAt := [] }

/-- One `set_progress` publication (`firmware_progress.py`): the payload the
tracker hands to the broker, which stores it in the snapshot hash and
publishes it once on the progress channel. -/
structure FwEvent where
  key : String
  typ : String
  status : String
  phase : String
  jobId : String
  percent : Option Nat
  downloaded_bytes : Option Nat
  total_bytes : Option Nat
  speed_bps : Option Nat
  elapsed_sec : Int
  eta_sec : Option Nat
deriving DecidableEq, Repr

/-- The key a fed line is attributed to, together with the tracker state after
the `current_key` update: `_guess_fw_key` result if any, else the running
current key, else the single known key. -/
def lineKey (st : TrackerState) (text : List Char) : String × TrackerState :=
  let guessed := guessFwKey text st.knownKeys
  let st1 := if guessed ≠ "" then { st with currentKey := guessed } else st
  let key :=
    if st1.currentKey ≠ "" then st1.currentKey
    else if st1.knownKeys.length = 1 then st1.knownKeys.headD "" else ""
  (key, st1)

/-- One line of `_FirmwareProgressTracker.feed`: strip, guess the key, parse
progress, deduplicate (same percent re-parsed less than 0.9 s after the last
emission for the key is dropped), otherwise record the emission and publish
one event. -/
def feedLine (st : TrackerState) (now : ℚ) (part : List Char) :
    TrackerState × List FwEvent :=
  let text := stripWS part
  if text = [] then (st, [])
  else
    let key := (lineKey st text).1
    let st1 := (lineKey st text).2
    match parseProgress (String.mk text) with
    | none => (st1, [])
    | some progress =>
        if key = "" then (st1, [])
        else
          let pct : Int :=
            match progress.percent with
            | some n => Int.ofNat n
            | none => -1
          let last := (alistGet st1.lastEmit key).getD (-1, 0)
          if 0 ≤ pct ∧ pct = last.1 ∧ now - last.2 < 9/10 then (st1, [])
          else
            let st2 : TrackerState :=
              { st1 with
                lastEmit := alistSet st1.lastEmit key (pct, now),
                startedKeys :=
                  if st1.startedKeys.contains key then st1.startedKeys
                  else st1.startedKeys ++ [key],
                startedAt := alistSetD st1.startedAt key now }
            let started := (alistGet st2.startedAt key).getD now
            let effective : Int := pyIntRat (now - started)
            (st2,
             [{ key := key, typ := "progress", status := "running",
                phase := st2.phase, jobId := st2.jobId,
                percent := progress.percent,
                downloaded_bytes := progress.downloaded_bytes,
                total_bytes := progress.total_bytes,
                speed_bps := progress.speed_bps,
                elapsed_sec := (progress.elapsed_sec.map Int.ofNat).getD effective,
                eta_sec := progress.eta_sec }])

/-- `re.split(r"[\r\n]+", chunk)`: split on maximal CR/LF runs. -/
def splitNLGo : Nat → List Char → List Char → List (List Char)
  | _, cur, [] => [cur.reverse]
  | 0, cur, l => [cur.reverse ++ l]
  | fuel + 1, cur, c :: rest =>
      if c = '\r' ∨ c = '\n' then
        cur.reverse :: splitNLGo fuel [] (rest.dropWhile (fun d => d = '\r' ∨ d = '\n'))
      else splitNLGo fuel (c :: cur) rest

def splitNL (l : List Char) : List (List Char) := splitNLGo l.length [] l

/-- `_FirmwareProgressTracker.feed` over a whole chunk: split on CR/LF runs
and feed each part, collecting the published events in order. -/
def feedChunk (st : TrackerState) (now : ℚ) (chunk : String) :
    TrackerState × List FwEvent :=
  (splitNL chunk.data).foldl
    (fun acc part =>
      let r := feedLine acc.1 now part
      (r.1, acc.2 ++ r.2))
    (st, [])

/-- The synthetic tqdm chunk of the firmware-progress scenario. -/
def fwChunk : String := "15%  3.2MiB/4.1GiB 2.1MiB/s [00:10<05:12]"

/-- The single snapshot the scenario chunk must produce. -/
def fwExpectedEvent : FwEvent :=
  { key := "SM-S901B_EUX", typ := "progress", status := "running",
    phase := "download", jobId := "job-1",
    percent := some 15, downloaded_bytes := some 3355443,
    total_bytes := some 4402341478, speed_bps := some 2202009,
    elapsed_sec := 10, eta_sec := some 312 }

/-- A tracker that has just emitted percent 15 for its single key at instant
0, used to exercise the deduplication window. -/
def dedupTracker : TrackerState :=
  { jobId := "job-2", phase := "download", knownKeys := ["SM-S901B_EUX"],
    currentKey := "SM-S901B_EUX", startedKeys := ["SM-S901B_EUX"],
    lastEmit := [("SM-S901B_EUX", (15, 0))],
    startedAt := [("SM-S901B_EUX", 0)] }

/-! ## Auth password endpoint (`main.py` `auth_set_password`, `_auth_enabled`) -/

/-- The settings table, as a partial map from key to value. -/
def SettingsStore : Type := String → Option String

/-- `_get_setting` with its default. -/
def getSetting (s : SettingsStore) (key default : String) : String :=
  (s key).getD default

/-- `_set_setting`. -/
def setSetting (s : SettingsStore) (key v : String) : SettingsStore :=
  fun k => if k = key then some v else s k

/-- `_delete_setting`. -/
def deleteSetting (s : SettingsStore) (key : String) : SettingsStore :=
  fun k => if k = key then none else s k

/-- `_auth_enabled`: both the password hash and the salt settings are present
and non-empty. -/
def authEnabled (s : SettingsStore) : Bool :=
  (getSetting s "auth.hash" "" != "") && (getSetting s "auth.salt" "" != "")

/-- `auth_set_password` (`main.py`): when auth is enabled the request must
carry a valid bearer token (`tokenOk` stands for
`token and _verify_token(secret, token)`), otherwise 401.  An empty password
deletes the hash and salt settings and reports auth disabled; a non-empty one
stores the fresh `salt` and the PBKDF2 `hashed` value (both oracles for the
random salt and the key-derivation result) and reports auth enabled. -/
def authSetPassword (s : SettingsStore) (password : String) (tokenOk : Bool)
    (salt hashed : String) : Except Nat (SettingsStore × Bool) :=
  if authEnabled s ∧ ¬ tokenOk then .error 401
  else if password = "" then
    .ok (deleteSetting (deleteSetting s "auth.hash") "auth.salt", false)
  else
    .ok (setSetting (setSetting s "auth.salt" salt) "auth.hash" hashed, true)

/-! ## HTTP latency histogram (`main.py` `_hist_percentile`) -/

/-- `_HTTP_LAT_BUCKETS_MS`. -/
def HTTP_LAT_BUCKETS_MS : List Nat :=
  [10, 25, 50, 100, 200, 350, 500, 750, 1000, 2000, 5000]

/-- The cumulative-sum loop of `_hist_percentile`; falling off the end of the
bucket list returns `_HTTP_LAT_BUCKETS_MS[-1] = 5000`. -/
def histLoop (fields : String → Int) (need : Int) : Int → List Nat → Nat
  | _, [] => 5000
  | seen, b :: rest =>
      let seen1 := seen + fields ("b_" ++ toString b)
      if seen1 ≥ need then b else histLoop fields need seen1 rest

/-- The required rank `max(1, int(total * q))`, with the float product
modelled as the exact rational and `int()` as truncation toward zero. -/
def histNeed (fields : String → Int) (q : ℚ) : Int :=
  max 1 (pyIntRat ((fields "count" : ℚ) * q))

/-- `_hist_percentile` (`main.py`): 0 on an empty histogram, otherwise walk
the bucket CDF.  `fields` is the Redis hash with `int(...get(..., 0))`
semantics (absent fields read 0). -/
def histPercentile (fields : String → Int) (q : ℚ) : Nat :=
  if fields "count" ≤ 0 then 0
  else histLoop fields (histNeed fields q) 0 HTTP_LAT_BUCKETS_MS

/-- Cumulative finite-bucket count over a bucket list. -/
def histCum (fields : String → Int) (l : List Nat) : Int :=
  (l.map (fun b => fields ("b_" ++ toString b))).sum

/-! ## Theorems -/

theorem beBytes_length (n v : Nat) : (beBytes n v).length = n := by
  induction n generalizing v with
  | zero => simp [beBytes]
  | succ k ih => simp [beBytes, ih]

theorem compressStep_length (st : List Nat) (kw : Nat × Nat) :
    (compressStep st kw).length = st.length := by
  rcases st with _ | ⟨a, _ | ⟨b, _ | ⟨c, _ | ⟨d, _ | ⟨e, _ | ⟨f, _ | ⟨g, _ | ⟨h, _ | ⟨i, t⟩⟩⟩⟩⟩⟩⟩⟩⟩ <;>
    simp [compressStep]

theorem foldl_compressStep_length (l : List (Nat × Nat)) (st : List Nat) :
    (l.foldl compressStep st).length = st.length := by
  induction l generalizing st with
  | nil => rfl
  | cons x xs ih => simp [List.foldl_cons, ih, compressStep_length]

theorem compressBlock_length (st b : List Nat) (h : st.length = 8) :
    (compressBlock st b).length = 8 := by
  simp [compressBlock, List.length_zip, foldl_compressStep_length, h]

theorem foldl_compressBlock_length (bs : List (List Nat)) (st : List Nat)
    (h : st.length = 8) : (bs.foldl compressBlock st).length = 8 := by
  induction bs generalizing st with
  | nil => exact h
  | cons x xs ih => exact ih _ (compressBlock_length _ _ h)

theorem sha256Words_length (msg : List Nat) : (sha256Words msg).length = 8 :=
  foldl_compressBlock_length _ _ rfl

theorem flatMap_beBytes4_length (l : List Nat) :
    (l.flatMap (beBytes 4)).length = 4 * l.length := by
  induction l with
  | nil => rfl
  | cons x xs ih => simp [List.flatMap_cons, ih, beBytes_length]; ring

theorem sha256Bytes_length (msg : List Nat) : (sha256Bytes msg).length = 32 := by
  unfold sha256Bytes
  rw [flatMap_beBytes4_length, sha256Words_length]

theorem flatMap_hexPair_length (bs : List Nat) :
    (bs.flatMap (fun b => [hexDigit (b >>> 4), hexDigit (b &&& 15)])).length
      = 2 * bs.length := by
  induction bs with
  | nil => rfl
  | cons x xs ih => simp [List.flatMap_cons, ih]; ring

theorem toHex_length (bs : List Nat) : (toHex bs).length = 2 * bs.length := by
  show (bs.flatMap (fun b => [hexDigit (b >>> 4), hexDigit (b &&& 15)])).length
      = 2 * bs.length
  exact flatMap_hexPair_length bs

theorem sha256Hex_length (s : String) : (sha256Hex s).length = 64 := by
  rw [sha256Hex, toHex_length, sha256Bytes_length]

theorem strTake_length (n : Nat) (s : String) :
    (strTake n s).length = min n s.length := by
  show (s.data.take n).length = min n s.data.length
  exact List.length_take n s.data

/-- C1 counterexample: at a concrete build request the signature stored by
`create_job` differs from the SHA-256 digest over the digests joined in the
order the claim states (extra mods, mods_disabled, debloat_disabled,
debloat_add_system, debloat_add_product, ff_overrides): the call site passes
`mods_signature` fifth, not second. -/
theorem createJob_signature_claim_order_false :
    createJobBuildSignature "a10" "c0ffee" "M/C/V" "M2/C2/V2" 1 2 3 "beta"
        none (some "[\"netfix\"]") none "[]" "[]" "[]"
      ≠ specOrderSignature "a10" "c0ffee" "M/C/V" "M2/C2/V2" 1 2 3 "beta"
        none (some "[\"netfix\"]") none "[]" "[]" "[]" := by
  set_option maxRecDepth 100000 in decide

/-- C1 (amended): the signature stored by `create_job` for every accepted
build request is the 40-hex-character truncated SHA-256 digest of the
`|`-joined fields target, source_commit, source_firmware, target_firmware,
version_major, version_minor, version_patch, version_suffix followed by the
16-hex-character truncated SHA-256 digests of the serialized payloads in the
order extra mods, debloat_disabled, debloat_add_system, debloat_add_product,
mods_disabled, ff_overrides. -/
theorem createJob_signature_spec (target sc sf tf : String) (vA vB vC : Nat)
    (suf : String) (em md ff : Option String) (dd das dap : String) :
    createJobBuildSignature target sc sf tf vA vB vC suf em md ff dd das dap
      = amendedOrderSignature target sc sf tf vA vB vC suf em md ff dd das dap
    ∧ (createJobBuildSignature target sc sf tf vA vB vC suf em md ff dd das dap).length
      = 40 := by
  refine ⟨rfl, ?_⟩
  rw [createJobBuildSignature, buildSignature, strTake_length, sha256Hex_length]
  rfl

/-- C2: a job canceled while queued is in a terminal status, yet the stop
endpoint leaves its builds-queue item pending, and when the worker later
dispatches that item `run_build_job` moves the job to `running` with no
terminal-status guard — the terminal status is left. -/
theorem canceled_queued_job_set_running :
    (apiStopJob queuedJobSys).status = .canceled
    ∧ (apiStopJob queuedJobSys).status.isTerminal = true
    ∧ (apiStopJob queuedJobSys).queueItemPending = true
    ∧ (runBuildJobStart (apiStopJob queuedJobSys)).status = .running := by
  decide

/-- C4: with `force=false` and `no_rom_zip=false`, when the reuse query finds
a most recent job with the same signature whose artifact path is truthy and
whose artifact file still exists, `create_job` inserts a `reused` row with
`return_code=0`, that job's artifact path, `reused_from_job_id` equal to that
job's id and `started_at = finished_at = now`, deletes the uploaded mods
archive exactly when one was attached, and enqueues nothing on the builds
queue. -/
theorem createJob_reuse_spec (sig : String) (db : List JobRow)
    (fsExists : String → Bool) (now : Int) (amp : Option String)
    (ex : JobRow) (ap : String)
    (hex : reuseCandidate db sig = some ex)
    (hap : ex.artifactPath = some ap)
    (hne : ap ≠ "")
    (hfs : fsExists ap = true) :
    createJobFinish false false sig db fsExists now amp =
      { job := { status := .reused, returnCode := some 0,
                 artifactPath := some ap, reusedFromJobId := some ex.id,
                 startedAt := some now, finishedAt := some now },
        enqueuedOnBuilds := false,
        deletedUploadedArchive := optStrTruthy amp } := by
  simp [createJobFinish, hex, hap, hne, hfs]

/-- Witness for `createJob_reuse_spec` at a concrete database. -/
theorem createJob_reuse_spec_witness :
    (createJobFinish false false "sig-a" [succeededRow7]
        (fun p => p = "out/UN1CA_1.zip") 100 (some "up/arch.zip")).job.status = .reused
    ∧ (createJobFinish false false "sig-a" [succeededRow7]
        (fun p => p = "out/UN1CA_1.zip") 100 (some "up/arch.zip")).enqueuedOnBuilds = false := by
  have h := createJob_reuse_spec "sig-a" [succeededRow7]
    (fun p => p = "out/UN1CA_1.zip") 100 (some "up/arch.zip")
    succeededRow7 "out/UN1CA_1.zip" (by decide) (by decide) (by decide) (by decide)
  rw [h]
  exact ⟨rfl, rfl⟩

/-- C3: an archive entry named `../extract_evil/passwd`, extracted into the
root `/work/extract`, resolves to `/work/extract_evil/passwd` — outside the
extraction root — yet `_safe_join` accepts it (the string-prefix check lacks a
trailing separator) and the extraction loop writes the file there instead of
raising `ModsArchiveError`. -/
theorem safe_join_prefix_escape :
    extractZipWrites ["work", "extract"] ["../extract_evil/passwd"]
      = .ok [["work", "extract_evil", "passwd"]]
    ∧ withinRoot ["work", "extract"] ["work", "extract_evil", "passwd"] = false
    ∧ safeJoin ["work", "extract"] "../extract_evil/passwd"
      = .ok ["work", "extract_evil", "passwd"] := by
  exact ⟨rfl, rfl, rfl⟩

/-- C5 counterexample: on a log file that already holds the five bytes
`hello`, a WebSocket opened with `tail_kb=0` starts reading at position 0 —
not at the end of the existing contents — and the first poll emits the entire
pre-existing content. -/
theorem tail_kb_zero_emits_history :
    tailLogStartPos true [104, 101, 108, 108, 111] 0 = 0
    ∧ tailLogStartPos true [104, 101, 108, 108, 111] 0
        ≠ ([104, 101, 108, 108, 111] : List Nat).length
    ∧ readLogChunk true [104, 101, 108, 108, 111]
        (tailLogStartPos true [104, 101, 108, 108, 111] 0)
      = ([104, 101, 108, 108, 111], 5) := by
  decide

/-- C5 (amended): with `tail_kb=0` the initial read position is 0, the start
of the file, so the first poll emits the entire existing log contents as one
chunk (historical content is emitted in full, followed by chunks appended
after the connection). -/
theorem tail_kb_zero_starts_at_zero (content : List Nat) :
    tailLogStartPos true content 0 = 0
    ∧ (readLogChunk true content (tailLogStartPos true content 0)).1 = content := by
  constructor
  · rfl
  · show content.drop 0 = content
    exact List.drop_zero content

/-- C6: in the stop task for a running job with a pid, the liveness probe
treats ESRCH as dead and EPERM as alive (for the process-group probe and the
direct fallback alike), the confirmation wait is 25 s for SIGTERM and 5 s for
SIGKILL, a dead process group yields status `canceled` with the pid cleared,
and a live one leaves the status `running` with an error telling the user the
process is still running and to retry the stop. -/
theorem stop_task_spec :
    (∀ d, isAlive .processLookup d = false)
    ∧ (∀ d, isAlive (.oserr ESRCH) d = false)
    ∧ (∀ d, isAlive .permission d = true)
    ∧ (∀ d, isAlive (.oserr EPERM) d = true)
    ∧ isAlive (.oserr 99) .processLookup = false
    ∧ isAlive (.oserr 99) .permission = true
    ∧ stopTimeoutSec "sigterm" = 25
    ∧ stopTimeoutSec "sigkill" = 5
    ∧ (∀ sig pid, (runStopRunning sig pid false).status = .canceled
        ∧ (runStopRunning sig pid false).processPid = none)
    ∧ (∀ sig pid, (runStopRunning sig pid true).status = .running
        ∧ (runStopRunning sig pid true).processPid = some pid)
    ∧ (∀ pid, (runStopRunning "sigterm" pid true).error
        = some "Stop requested by user (SIGTERM), but process is still running. Retry stop if needed.")
    ∧ (∀ pid, (runStopRunning "sigkill" pid true).error
        = some "Stop requested by user (SIGKILL), but process is still running. Retry stop if needed.") := by
  exact ⟨fun d => rfl, fun d => rfl, fun d => rfl, fun d => rfl, rfl, rfl, rfl, rfl,
    fun sig pid => ⟨rfl, rfl⟩, fun sig pid => ⟨rfl, rfl⟩,
    fun pid => rfl, fun pid => rfl⟩

/-- C7: feeding the firmware tracker a chunk that is exactly
`15%  3.2MiB/4.1GiB 2.1MiB/s [00:10<05:12]` publishes a single progress
snapshot with percent 15, downloaded_bytes 3355443, total_bytes 4402341478,
speed_bps 2202009, elapsed_sec 10 and eta_sec 312. -/
theorem firmware_chunk_single_snapshot :
    (feedChunk (mkTracker "job-1" ["SM-S901B_EUX"] "download") 20 fwChunk).2
      = [fwExpectedEvent] := by
  decide

/-- Reading a key does not depend on the tracker fields `lineKey` leaves
untouched: the post-guess state keeps the same `lastEmit` map. -/
theorem lineKey_lastEmit (st : TrackerState) (text : List Char) :
    (lineKey st text).2.lastEmit = st.lastEmit := by
  unfold lineKey
  dsimp only
  split <;> rfl

/-- C8: a parsed progress line whose percent equals the percent of the last
event emitted for its firmware key, arriving less than 0.9 s after that
emission, publishes nothing. -/
theorem feed_dedup_within_900ms (st : TrackerState) (now : ℚ) (part : List Char)
    (p : ProgressPayload) (pc : Nat) (t : ℚ) (k : String)
    (htext : stripWS part ≠ [])
    (hkey : (lineKey st (stripWS part)).1 = k)
    (hk : k ≠ "")
    (hparse : parseProgress (String.mk (stripWS part)) = some p)
    (hpct : p.percent = some pc)
    (hlast : alistGet st.lastEmit k = some (Int.ofNat pc, t))
    (hfresh : now - t < 9/10) :
    (feedLine st now part).2 = [] := by
  unfold feedLine
  rw [if_neg htext, hkey, hparse]
  dsimp only
  rw [if_neg hk, hpct]
  dsimp only
  rw [lineKey_lastEmit, hlast]
  dsimp only [Option.getD]
  rw [if_pos ⟨Int.ofNat_nonneg pc, rfl, hfresh⟩]

/-- Witness for `feed_dedup_within_900ms`: half a second after emitting
percent 15, the same chunk parses to percent 15 again and nothing is
published. -/
theorem feed_dedup_within_900ms_witness :
    (feedLine dedupTracker (1/2) fwChunk.data).2 = [] := by
  apply feed_dedup_within_900ms dedupTracker (1/2) fwChunk.data
    { percent := some 15, downloaded_bytes := some 3355443,
      total_bytes := some 4402341478, speed_bps := some 2202009,
      elapsed_sec := some 10, eta_sec := some 312 }
    15 0 "SM-S901B_EUX"
  · decide
  · decide
  · decide
  · decide
  · decide
  · decide
  · norm_num

/-- C9: from the auth-disabled state (neither setting present), setting a
non-empty password and then clearing it with the issued token deletes both the
password hash and salt settings, disables authentication, and returns the
settings store to exactly its initial state. -/
theorem auth_set_clear_roundtrip (s : SettingsStore) (p salt hashed : String)
    (h1 : s "auth.hash" = none) (h2 : s "auth.salt" = none)
    (hp : p ≠ "") (hs : salt ≠ "") (hh : hashed ≠ "") :
    ∃ s1, authSetPassword s p false salt hashed = .ok (s1, true)
      ∧ authEnabled s1 = true
      ∧ authSetPassword s1 "" true salt hashed = .ok (s, false)
      ∧ s "auth.hash" = none ∧ s "auth.salt" = none ∧ authEnabled s = false := by
  have hen : authEnabled s = false := by
    simp [authEnabled, getSetting, h1, h2]
  refine ⟨setSetting (setSetting s "auth.salt" salt) "auth.hash" hashed, ?_, ?_, ?_, h1, h2, hen⟩
  · unfold authSetPassword
    rw [if_neg (by simp [hen]), if_neg hp]
  · simp [authEnabled, getSetting, setSetting, hh, hs]
  · unfold authSetPassword
    rw [if_neg (by simp), if_pos rfl]
    have hst : deleteSetting (deleteSetting
        (setSetting (setSetting s "auth.salt" salt) "auth.hash" hashed)
        "auth.hash") "auth.salt" = s := by
      funext k
      by_cases hk1 : k = "auth.salt"
      · simp [deleteSetting, hk1, h2]
      · by_cases hk2 : k = "auth.hash"
        · simp [deleteSetting, hk1, hk2, h1]
        · simp [deleteSetting, setSetting, hk1, hk2]
    rw [hst]

/-- Witness for `auth_set_clear_roundtrip` on the empty settings store. -/
theorem auth_set_clear_roundtrip_witness :
    ∃ s1, authSetPassword (fun _ => none) "pw" false "73616c74" "deadbeef"
        = .ok (s1, true)
      ∧ authEnabled s1 = true
      ∧ authSetPassword s1 "" true "73616c74" "deadbeef"
        = .ok ((fun _ => none : SettingsStore), false)
      ∧ (fun _ => none : SettingsStore) "auth.hash" = none
      ∧ (fun _ => none : SettingsStore) "auth.salt" = none
      ∧ authEnabled (fun _ => none) = false :=
  auth_set_clear_roundtrip (fun _ => none) "pw" "73616c74" "deadbeef"
    rfl rfl (by decide) (by decide) (by decide)

/-- The cumulative loop either stops on a bucket of its list or falls through
to the last finite bound. -/
theorem histLoop_mem (fields : String → Int) (need : Int) :
    ∀ (l : List Nat) (seen : Int),
      histLoop fields need seen l = 5000 ∨ histLoop fields need seen l ∈ l := by
  intro l
  induction l with
  | nil => intro seen; left; rfl
  | cons b rest ih =>
      intro seen
      unfold histLoop
      dsimp only
      split
      · right; exact List.mem_cons_self b rest
      · rcases ih (seen + fields ("b_" ++ toString b)) with h | h
        · left; exact h
        · right; exact List.mem_cons_of_mem b h

theorem histCum_cons (fields : String → Int) (b : Nat) (l : List Nat) :
    histCum fields (b :: l) = fields ("b_" ++ toString b) + histCum fields l := by
  simp [histCum]

/-- If no prefix of the bucket CDF reaches the rank, the loop falls through. -/
theorem histLoop_overflow (fields : String → Int) (need : Int) :
    ∀ (l : List Nat) (seen : Int),
      (∀ k, k ≤ l.length → seen + histCum fields (l.take k) < need) →
      histLoop fields need seen l = 5000 := by
  intro l
  induction l with
  | nil => intro seen _; rfl
  | cons b rest ih =>
      intro seen hall
      unfold histLoop
      dsimp only
      have h1 := hall 1 (by simp)
      rw [List.take_succ_cons, List.take_zero, histCum_cons] at h1
      simp [histCum] at h1
      rw [if_neg (by omega)]
      apply ih
      intro k hk
      have := hall (k + 1) (by simpa using Nat.succ_le_succ hk)
      rw [List.take_succ_cons, histCum_cons] at this
      omega

/-- C10: the histogram quantile is 0 on an empty or negative count; on a
positive count it is always one of the finite bucket bounds 10..5000 ms; and
when the cumulative finite-bucket counts never reach the required rank (the
rank falls in the overflow bucket) it is capped at the last finite bound,
5000 ms. -/
theorem hist_percentile_spec (fields : String → Int) (q : ℚ) :
    (fields "count" ≤ 0 → histPercentile fields q = 0)
    ∧ (0 < fields "count" → histPercentile fields q ∈ HTTP_LAT_BUCKETS_MS)
    ∧ (0 < fields "count" →
        (∀ k, k ≤ HTTP_LAT_BUCKETS_MS.length →
          histCum fields (HTTP_LAT_BUCKETS_MS.take k) < histNeed fields q) →
        histPercentile fields q = 5000) := by
  refine ⟨?_, ?_, ?_⟩
  · intro h
    unfold histPercentile
    rw [if_pos h]
  · intro h
    unfold histPercentile
    rw [if_neg (not_le.mpr h)]
    rcases histLoop_mem fields (histNeed fields q) HTTP_LAT_BUCKETS_MS 0 with h5 | hm
    · rw [h5]; decide
    · exact hm
  · intro h hall
    unfold histPercentile
    rw [if_neg (not_le.mpr h)]
    apply histLoop_overflow
    intro k hk
    simpa using hall k hk

/-- Witness for `hist_percentile_spec`: ten samples, all in the overflow
bucket, at the 90th percentile report 5000 ms. -/
theorem hist_percentile_spec_witness :
    histPercentile (fun f => if f = "count" then 10 else 0) (9 / 10) = 5000 := by
  have hx : ((10 : Int) : ℚ) * (9 / 10) = 9 := by norm_num
  have hneed : histNeed (fun f => if f = "count" then 10 else 0) (9 / 10) = 9 := by
    unfold histNeed pyIntRat
    show max 1 (Int.tdiv (((10 : Int) : ℚ) * (9 / 10)).num
      ((((10 : Int) : ℚ) * (9 / 10)).den : Int)) = 9
    rw [hx]
    decide
  apply (hist_percentile_spec (fun f => if f = "count" then 10 else 0) (9 / 10)).2.2
  · decide
  · intro k hk
    rw [hneed]
    have hk11 : k ≤ 11 := by simpa [HTTP_LAT_BUCKETS_MS] using hk
    interval_cases k <;> decide

end UnicaWB
